import Mathlib

/-!
Verification development for the chess wagering contract repository.

The repository ships the browser frontend (`ChessBoard.tsx`, `ChessGame.tsx`,
`SecretJsFunctions.ts`), an integration-test script driving the deployed
contract, and the contract crate's `Cargo.toml`; the CosmWasm contract source
itself is not part of the visible sources.  The game state machine and escrow
ledger are therefore modelled from the specification (spec.md §3–§4), while
the frontend status decoding and message construction are shallow embeddings
of the TypeScript sources.
-/

namespace ChessContract

/-- Modelled from the spec (§3, §4.1): a chess side.  The contract source is
absent from the repository; colors are as named by the spec. -/
inductive Color where
  | white
  | black
deriving DecidableEq, Repr

/-- The opposite side. -/
def Color.flip : Color → Color
  | .white => .black
  | .black => .white

/-- Modelled from the spec (§4.1): the Rules Engine's classification of the
position after a move. -/
inductive Classification where
  | ongoing
  | check
  | checkmate
  | stalemate
deriving DecidableEq, Repr

/-- Modelled from the spec (§4.1): Board/Rules Engine errors. -/
inductive RulesError where
  | illegalMove
  | missingPromotion
  | invalidPromotion
deriving DecidableEq, Repr

/-- Modelled from the spec (§3 `board`): a full position in portable notation.
The side to move is the component the state machine inspects, so it is kept
as a separate field; the remaining FEN components are opaque text. -/
structure Position where
  pieces : String
  sideToMove : Color
deriving DecidableEq, Repr

/-- Modelled from the spec (§4.4, §6 make_move): a candidate move request. -/
structure MoveReq where
  moveFrom : String
  moveTo : String
  promotion : Option String
deriving DecidableEq, Repr

/-- Modelled from the spec (§4.1): result of a successful `applyMove`. -/
structure ApplyResult where
  newPos : Position
  classification : Classification
deriving DecidableEq, Repr

/-- Modelled from the spec (§4.1): the Board/Rules Engine is a pure function
from a position and a candidate move to either an error or the new position
with its classification.  The engine (the `chess` crate) is not in the
repository, so the state machine is parameterized over it. -/
def Engine : Type := Position → MoveReq → Except RulesError ApplyResult

/-- Modelled from the spec (§4.1): the spec requires that applying a legal
move flips the side to move (turn alternation, §8). -/
def EngineFlips (engine : Engine) : Prop :=
  ∀ pos mv res, engine pos mv = Except.ok res →
    res.newPos.sideToMove = pos.sideToMove.flip

/-- Modelled from the spec (§3 `status`): the seven game statuses. -/
inductive Status where
  | pending
  | active
  | stalemate
  | checkmateWhiteWins
  | checkmateBlackWins
  | whiteResigned
  | blackResigned
deriving DecidableEq, Repr

/-- Terminal statuses are all but Pending and Active (§3). -/
def Status.isTerminal : Status → Bool
  | .pending => false
  | .active => false
  | _ => true

/-- Participant identities are bech32 addresses; opaque strings here. -/
abbrev Addr := String

/-- A single disbursement: recipient and amount in the smallest unit. -/
abbrev Payment := Addr × Nat

/-- Total amount of a disbursement list. -/
def paySum : List Payment → Nat
  | [] => 0
  | p :: rest => p.2 + paySum rest

/-- Modelled from the spec (§4.3, §4.4, §7): the error taxonomy surfaced to
callers. -/
inductive ContractError where
  | notFound
  | gameNotActive
  | notYourTurn
  | notAParticipant
  | selfJoin
  | wagerMismatch
  | insufficientPot
  | zeroWager
  | rules (e : RulesError)
deriving DecidableEq, Repr

/-- Modelled from the spec (§3): one chess match instance.  `deposited` and
`disbursed` are the escrow ledger's accounting of funds received for and paid
out of this game (§4.3); `pot` is the amount currently held. -/
structure Game where
  id : Nat
  board : Position
  white : Option Addr
  black : Option Addr
  wager : Nat
  pot : Nat
  status : Status
  deposited : Nat
  disbursed : Nat
deriving DecidableEq, Repr

/-- Modelled from the spec (§4.2, §9): persisted state is the id-allocation
counter plus the games in creation order. -/
structure ContractState where
  nextId : Nat
  games : List Game
deriving DecidableEq, Repr

/-- The freshly instantiated contract: no games, ids start at 1 (the
integration test observes the first created game as id 1). -/
def initState : ContractState := ⟨1, []⟩

/-- Record-store lookup (§4.2 `get`). -/
def lookupGame (s : ContractState) (id : Nat) : Option Game :=
  s.games.find? (fun g => g.id = id)

/-- Record-store update (§4.2 `put`): replace the game with the same id. -/
def putGame (s : ContractState) (gNew : Game) : ContractState :=
  ⟨s.nextId, s.games.map (fun g => if g.id = gNew.id then gNew else g)⟩

/-- The standard chess starting position; side to move is White. -/
def startPosition : Position :=
  ⟨"rnbqkbnr/pppppppp/8/8/8/8/PPPPPPPP/RNBQKBNR KQkq - 0 1", .white⟩

/-- Modelled from the spec (§4.3 `payout`): moves the entire current pot out
to the given recipients atomically, so the requested amounts must sum to
exactly `pot`; a request exceeding the pot fails with `InsufficientPot` (the
spec names no separate error for a short request, so the same error is
returned); on success the pot is 0 and the requested amounts are disbursed. -/
def payout (pot : Nat) (recips : List Payment) :
    Except ContractError (Nat × List Payment) :=
  if paySum recips = pot then Except.ok (0, recips)
  else Except.error ContractError.insufficientPot

/-- Modelled from the spec (§4.4 `createGame`): fails with `ZeroWager` when
the wager is zero or the attached deposit differs from it; otherwise allocates
the next id, assigns the creator to the White slot, escrows the deposit and
records a Pending game.  Amounts are attached on-chain funds, hence `Nat`. -/
def createGame (s : ContractState) (creator : Addr) (wager deposit : Nat) :
    Except ContractError (ContractState × List Payment) :=
  if wager = 0 ∨ deposit ≠ wager then Except.error ContractError.zeroWager
  else Except.ok
    (⟨s.nextId + 1,
      s.games ++ [⟨s.nextId, startPosition, some creator, none, wager, deposit,
                  Status.pending, deposit, 0⟩]⟩, [])

/-- Modelled from the spec (§4.4 `joinGame`): unknown id fails with
`NotFound`; on a Pending game a joiner equal to an existing participant fails
with `SelfJoin`, a deposit different from the wager fails with
`WagerMismatch`, and otherwise the joiner fills the Black slot, the deposit
is escrowed and the game becomes Active; on a non-Pending game the call is a
spectator join — a no-op when no funds are attached, rejected with
`WagerMismatch` when funds are attached (never silently retained). -/
def joinGame (s : ContractState) (id : Nat) (joiner : Addr) (deposit : Nat) :
    Except ContractError (ContractState × List Payment) :=
  match lookupGame s id with
  | none => Except.error ContractError.notFound
  | some g =>
    if g.status = Status.pending then
      if some joiner = g.white ∨ some joiner = g.black then
        Except.error ContractError.selfJoin
      else if deposit ≠ g.wager then
        Except.error ContractError.wagerMismatch
      else
        Except.ok
          (putGame s { g with
                       black := some joiner,
                       pot := g.pot + deposit,
                       status := Status.active,
                       deposited := g.deposited + deposit }, [])
    else
      if deposit = 0 then Except.ok (s, [])
      else Except.error ContractError.wagerMismatch

/-- Modelled from the spec (§4.4 `makeMove`): unknown id fails with
`NotFound`; a non-Active game fails with `GameNotActive`; an actor other than
the participant whose color matches the position's side to move fails with
`NotYourTurn`; otherwise the Rules Engine is consulted — on Checkmate the
winner-specific status is set and the full pot paid to the mover, on
Stalemate the pot is split (odd remainder to White) and the status set to
Stalemate, otherwise the board is updated and the game stays Active.  The
new position is stored in every success case (§8 round-trip). -/
def makeMove (engine : Engine) (s : ContractState) (id : Nat) (actor : Addr)
    (mv : MoveReq) : Except ContractError (ContractState × List Payment) :=
  match lookupGame s id with
  | none => Except.error ContractError.notFound
  | some g =>
    if g.status ≠ Status.active then Except.error ContractError.gameNotActive
    else
      match g.white, g.black with
      | some w, some b =>
        let mover := if g.board.sideToMove = Color.white then w else b
        if actor ≠ mover then Except.error ContractError.notYourTurn
        else
          match engine g.board mv with
          | Except.error e => Except.error (ContractError.rules e)
          | Except.ok res =>
            if res.classification = Classification.checkmate then
              match payout g.pot [(mover, g.pot)] with
              | Except.error e => Except.error e
              | Except.ok (potAfter, pays) =>
                let stW : Status := if g.board.sideToMove = Color.white then
                  Status.checkmateWhiteWins else Status.checkmateBlackWins
                Except.ok
                  (putGame s { g with
                               board := res.newPos,
                               status := stW,
                               pot := potAfter,
                               disbursed := g.disbursed + paySum pays }, pays)
            else if res.classification = Classification.stalemate then
              match payout g.pot [(w, g.pot - g.pot / 2), (b, g.pot / 2)] with
              | Except.error e => Except.error e
              | Except.ok (potAfter, pays) =>
                Except.ok
                  (putGame s { g with
                               board := res.newPos,
                               status := Status.stalemate,
                               pot := potAfter,
                               disbursed := g.disbursed + paySum pays }, pays)
            else
              Except.ok (putGame s { g with board := res.newPos }, [])
      | _, _ => Except.error ContractError.notYourTurn

/-- Modelled from the spec (§4.4 `resign`): unknown id fails with `NotFound`;
a non-Active game fails with `GameNotActive`; an actor who is neither
assigned color fails with `NotAParticipant`; otherwise the resignation status
matching the resigning color is set and the full pot paid to the other
participant. -/
def resign (s : ContractState) (id : Nat) (actor : Addr) :
    Except ContractError (ContractState × List Payment) :=
  match lookupGame s id with
  | none => Except.error ContractError.notFound
  | some g =>
    if g.status ≠ Status.active then Except.error ContractError.gameNotActive
    else
      match g.white, g.black with
      | some w, some b =>
        if actor = w then
          match payout g.pot [(b, g.pot)] with
          | Except.error e => Except.error e
          | Except.ok (potAfter, pays) =>
            Except.ok
              (putGame s { g with
                           status := Status.whiteResigned,
                           pot := potAfter,
                           disbursed := g.disbursed + paySum pays }, pays)
        else if actor = b then
          match payout g.pot [(w, g.pot)] with
          | Except.error e => Except.error e
          | Except.ok (potAfter, pays) =>
            Except.ok
              (putGame s { g with
                           status := Status.blackResigned,
                           pot := potAfter,
                           disbursed := g.disbursed + paySum pays }, pays)
        else Except.error ContractError.notAParticipant
      | _, _ => Except.error ContractError.notAParticipant

/-- States reachable from the freshly instantiated contract by successful
operations (a failed operation aborts the transaction and leaves the state
unchanged, §5/§7, so only successes produce new states). -/
inductive Reachable : ContractState → Prop where
  | init : Reachable initState
  | create {s s' : ContractState} {c : Addr} {w d : Nat} {pays : List Payment} :
      Reachable s → createGame s c w d = Except.ok (s', pays) → Reachable s'
  | join {s s' : ContractState} {id : Nat} {j : Addr} {d : Nat}
      {pays : List Payment} :
      Reachable s → joinGame s id j d = Except.ok (s', pays) → Reachable s'
  | move {engine : Engine} {s s' : ContractState} {id : Nat} {a : Addr}
      {mv : MoveReq} {pays : List Payment} :
      Reachable s → makeMove engine s id a mv = Except.ok (s', pays) →
      Reachable s'
  | resignStep {s s' : ContractState} {id : Nat} {a : Addr}
      {pays : List Payment} :
      Reachable s → resign s id a = Except.ok (s', pays) → Reachable s'

/-- The per-game escrow and slot invariant implied by the lifecycle (§3):
Pending holds the creator's single deposit, Active holds both matching
deposits, and a terminal game has disbursed everything it received. -/
def GameInv (g : Game) : Prop :=
  0 < g.wager ∧
  (g.status = Status.pending →
      g.pot = g.wager ∧ g.deposited = g.wager ∧ g.disbursed = 0 ∧
      (∃ w, g.white = some w) ∧ g.black = none) ∧
  (g.status = Status.active →
      g.pot = 2 * g.wager ∧ g.deposited = 2 * g.wager ∧ g.disbursed = 0 ∧
      ∃ w b, g.white = some w ∧ g.black = some b ∧ w ≠ b) ∧
  (g.status.isTerminal = true →
      g.pot = 0 ∧ g.deposited = 2 * g.wager ∧ g.disbursed = 2 * g.wager ∧
      ∃ w b, g.white = some w ∧ g.black = some b ∧ w ≠ b)

/-- Every stored game satisfies the per-game invariant. -/
def StateInv (s : ContractState) : Prop :=
  ∀ g ∈ s.games, GameInv g

end ChessContract

namespace Frontend

/-- What a click on a board square leads to in `ChessBoard.tsx`
(`handleSquareClick`): nothing, highlighting a square's legal targets,
issuing a move transaction, or opening the promotion modal. -/
inductive ClickAction where
  | ignore
  | highlight (square : String)
  | move (moveFrom moveTo : String)
  | openPromotion (moveFrom moveTo : String)
deriving DecidableEq, Repr

/-- Embedding of the status rendering in `ChessBoard.tsx` (the nested
conditional in the Game Status panel): the numeric status code from
`get_game` mapped to the displayed name. -/
def getStatusLabel (status : Int) : String :=
  if status = 1 then "Pending"
  else if status = 2 then "Active"
  else if status = 3 then "Stalemate"
  else if status = 4 then "White Wins"
  else if status = 5 then "Black Wins"
  else if status = 6 then "White Resigned"
  else if status = 7 then "Black Resigned"
  else "Unknown"

/-- Embedding of the `switch (gameStatus)` message effect in
`ChessBoard.tsx`: the banner text shown for each status code. -/
def statusMessage (status : Int) : String :=
  if status = 1 then
    "Game is still pending. Please wait for the opponent to join."
  else if status = 2 then ""
  else if status = 3 then "Stalemate! The game is over."
  else if status = 4 then "Checkmate! White wins the game."
  else if status = 5 then "Checkmate! Black wins the game."
  else if status = 6 then "White has resigned. Black wins the game."
  else if status = 7 then "Black has resigned. White wins the game."
  else "Unknown game status."

/-- Embedding of `handleSquareClick` in `ChessBoard.tsx`.  The chess.js
calls are abstracted as inputs: `turn` is `chess.turn()`, `selectedTargets`
are the destinations of `chess.moves({square: selectedSquare})`, and `promo`
is `isPromotionMove(selectedSquare, square)`.  The function returns early
unless the game status code is 2 and, when the player has a color, unless it
is their turn; a click on a legal target of the selected square issues the
move (or opens the promotion modal); any other click highlights. -/
def handleSquareClick (gameStatus : Int) (playerColor : Option String)
    (turn : String) (selectedSquare : Option String)
    (selectedTargets : List String) (promo : Bool) (square : String) :
    ClickAction :=
  if gameStatus ≠ 2 then ClickAction.ignore
  else if (match playerColor with
           | some c => c ≠ turn
           | none => false : Bool) then ClickAction.ignore
  else
    match selectedSquare with
    | some sel =>
      if square ∈ selectedTargets then
        if promo then ClickAction.openPromotion sel square
        else ClickAction.move sel square
      else ClickAction.highlight square
    | none => ClickAction.highlight square

/-- A coin attached to a transaction, as built in `SecretJsFunctions.ts`. -/
structure Coin where
  denom : String
  amount : String
deriving DecidableEq, Repr

/-- The `join_game` execute message assembled by `joinGame` in
`SecretJsFunctions.ts`: the inner `game_id` plus the optional `sent_funds`
field (absent when not set). -/
structure JoinGameMsg where
  game_id : Int
  sent_funds : Option (List Coin)
deriving DecidableEq, Repr

/-- Embedding of `joinGame` in `SecretJsFunctions.ts`: the message carries a
`sent_funds` field only when `wager > 0n`, and then it is the single coin
`{denom: "uscrt", amount: wager.toString()}`. -/
def buildJoinGameMsg (gameId wager : Int) : JoinGameMsg :=
  { game_id := gameId,
    sent_funds :=
      if 0 < wager then some [⟨"uscrt", toString wager⟩] else none }

end Frontend

namespace ChessContract

/-- The state a transaction leaves behind: the new state on success, the
unchanged prior state on failure (the host aborts the whole transaction on
any error, spec §5/§7). -/
def applyExec (s : ContractState)
    (r : Except ContractError (ContractState × List Payment)) :
    ContractState :=
  match r with
  | Except.ok (s', _) => s'
  | Except.error _ => s

/-- A concrete Rules Engine instance used to exercise the state machine: it
accepts every move, flips the side to move and reports the game ongoing. -/
def flipEngine : Engine :=
  fun pos _ =>
    Except.ok ⟨⟨pos.pieces, pos.sideToMove.flip⟩, Classification.ongoing⟩

/-- A sample address used in concrete runs. -/
def alice : Addr := "secret1alice"

/-- A second sample address. -/
def bob : Addr := "secret1bob"

/-- A third sample address (a spectator). -/
def carol : Addr := "secret1carol"

/-- The game stored after `createGame initState alice 100000 100000`. -/
def gPending : Game :=
  ⟨1, startPosition, some alice, none, 100000, 100000, Status.pending,
   100000, 0⟩

/-- The state after Alice creates a game with a 100000 wager. -/
def sPending : ContractState := ⟨2, [gPending]⟩

/-- The game after Bob joins with the matching 100000 deposit. -/
def gActive : Game :=
  ⟨1, startPosition, some alice, some bob, 100000, 200000, Status.active,
   200000, 0⟩

/-- The state after Bob joins Alice's game. -/
def sActive : ContractState := ⟨2, [gActive]⟩

/-- The game after White (Alice) resigns: pot paid out to Bob. -/
def gResigned : Game :=
  ⟨1, startPosition, some alice, some bob, 100000, 0, Status.whiteResigned,
   200000, 200000⟩

/-- The state after Alice resigns the active game. -/
def sResigned : ContractState := ⟨2, [gResigned]⟩

/-- The state after one `flipEngine` move in the active game: the stored
board's side to move is Black. -/
def sMoved : ContractState :=
  ⟨2, [⟨1, ⟨startPosition.pieces, Color.black⟩, some alice, some bob, 100000,
       200000, Status.active, 200000, 0⟩]⟩

end ChessContract

namespace ChessContract

/-- A payout whose requested amounts sum to the pot succeeds, zeroing the
pot and disbursing exactly the request. -/
theorem payout_ok_of_sum {pot : Nat} {recips : List Payment}
    (h : paySum recips = pot) : payout pot recips = Except.ok (0, recips) := by
  simp [payout, h]

/-- Paying the whole pot to a single recipient succeeds. -/
theorem payout_single (a : Addr) (pot : Nat) :
    payout pot [(a, pot)] = Except.ok (0, [(a, pot)]) :=
  payout_ok_of_sum (by simp [paySum])

/-- The stalemate split (odd remainder to White) sums to the pot, so it
succeeds. -/
theorem payout_split (w b : Addr) (pot : Nat) :
    payout pot [(w, pot - pot / 2), (b, pot / 2)] =
      Except.ok (0, [(w, pot - pot / 2), (b, pot / 2)]) :=
  payout_ok_of_sum (by simp [paySum]; omega)

/-- A game found by id is one of the stored games. -/
theorem lookupGame_mem {s : ContractState} {id : Nat} {g : Game}
    (h : lookupGame s id = some g) : g ∈ s.games :=
  List.mem_of_find?_eq_some h

/-- A game found by id has that id. -/
theorem lookupGame_id {s : ContractState} {id : Nat} {g : Game}
    (h : lookupGame s id = some g) : g.id = id := by
  have := List.find?_some h
  simpa using this

/-- Every game stored after a `putGame` is the new game or an old one. -/
theorem mem_putGame {s : ContractState} {gNew g' : Game}
    (h : g' ∈ (putGame s gNew).games) : g' = gNew ∨ g' ∈ s.games := by
  simp only [putGame, List.mem_map] at h
  obtain ⟨g, hg, hEq⟩ := h
  by_cases hid : g.id = gNew.id
  · left
    rw [if_pos hid] at hEq
    exact hEq.symm
  · right
    rw [if_neg hid] at hEq
    exact hEq ▸ hg

/-- Looking up after `putGame` applies the replacement to the lookup. -/
theorem lookupGame_putGame (s : ContractState) (gNew : Game) (id : Nat) :
    lookupGame (putGame s gNew) id =
      (lookupGame s id).map (fun g => if g.id = gNew.id then gNew else g) := by
  unfold lookupGame putGame
  rw [List.find?_map]
  have hp : ((fun g => decide (g.id = id)) ∘
      fun g : Game => if g.id = gNew.id then gNew else g) =
      (fun g : Game => decide (g.id = id)) := by
    funext g
    by_cases hid : g.id = gNew.id
    · simp [Function.comp, hid]
    · simp [Function.comp, hid]
  rw [hp]

/-- Replacing the found game makes the replacement the lookup result. -/
theorem lookupGame_put_self {s : ContractState} {id : Nat} {g : Game}
    (gNew : Game) (h : lookupGame s id = some g) (hid : gNew.id = g.id) :
    lookupGame (putGame s gNew) id = some gNew := by
  rw [lookupGame_putGame, h]
  simp [hid.symm]

end ChessContract

namespace ChessContract

/-- A successful `createGame` preserves the state invariant. -/
theorem createGame_inv {s s' : ContractState} {c : Addr} {w d : Nat}
    {pays : List Payment} (hs : StateInv s)
    (h : createGame s c w d = Except.ok (s', pays)) : StateInv s' := by
  unfold createGame at h
  split at h
  · exact absurd h (by simp)
  next hguard =>
    push_neg at hguard
    obtain ⟨hw, hd⟩ := hguard
    simp only [Except.ok.injEq, Prod.mk.injEq] at h
    obtain ⟨hst, _⟩ := h
    subst hst
    intro g hg
    simp only [List.mem_append, List.mem_singleton] at hg
    rcases hg with hg | hg
    · exact hs g hg
    · subst hg
      refine ⟨Nat.pos_of_ne_zero hw, fun _ => ⟨hd, hd, rfl, ⟨c, rfl⟩, rfl⟩,
        fun hact => ?_, fun hterm => ?_⟩
      · simp at hact
      · simp [Status.isTerminal] at hterm

end ChessContract

namespace ChessContract

/-- A successful `joinGame` preserves the state invariant. -/
theorem joinGame_inv {s s' : ContractState} {id : Nat} {j : Addr} {d : Nat}
    {pays : List Payment} (hs : StateInv s)
    (h : joinGame s id j d = Except.ok (s', pays)) : StateInv s' := by
  cases hlk : lookupGame s id with
  | none =>
    simp only [joinGame, hlk] at h
    exact absurd h (by simp)
  | some g =>
    simp only [joinGame, hlk] at h
    by_cases hst : g.status = Status.pending
    · rw [if_pos hst] at h
      by_cases hself : some j = g.white ∨ some j = g.black
      · rw [if_pos hself] at h
        exact absurd h (by simp)
      · rw [if_neg hself] at h
        by_cases hdep : d ≠ g.wager
        · rw [if_pos hdep] at h
          exact absurd h (by simp)
        · rw [if_neg hdep] at h
          push_neg at hdep
          simp only [Except.ok.injEq, Prod.mk.injEq] at h
          obtain ⟨hst', _⟩ := h
          subst hst'
          intro g' hg'
          rcases mem_putGame hg' with rfl | hg'
          · obtain ⟨hwpos, hpend, _, _⟩ := hs g (lookupGame_mem hlk)
            obtain ⟨hpot, hdep0, hdisb, ⟨w0, hw0⟩, hblack⟩ := hpend hst
            push_neg at hself
            refine ⟨hwpos, fun hh => ?_, fun _ => ?_, fun hterm => ?_⟩
            · simp at hh
            · refine ⟨?_, ?_, hdisb, w0, j, ?_, rfl, ?_⟩
              · simp only
                omega
              · simp only
                omega
              · simpa using hw0
              · intro hwj
                exact hself.1 (by rw [hw0, hwj])
            · simp [Status.isTerminal] at hterm
          · exact hs g' hg'
    · rw [if_neg hst] at h
      by_cases hd0 : d = 0
      · rw [if_pos hd0] at h
        simp only [Except.ok.injEq, Prod.mk.injEq] at h
        obtain ⟨hst', _⟩ := h
        subst hst'
        exact hs
      · rw [if_neg hd0] at h
        exact absurd h (by simp)

end ChessContract

namespace ChessContract

/-- A successful `makeMove` preserves the state invariant, whatever the
Rules Engine answers. -/
theorem makeMove_inv {engine : Engine} {s s' : ContractState} {id : Nat}
    {a : Addr} {mv : MoveReq} {pays : List Payment} (hs : StateInv s)
    (h : makeMove engine s id a mv = Except.ok (s', pays)) : StateInv s' := by
  cases hlk : lookupGame s id with
  | none =>
    simp only [makeMove, hlk] at h
    exact absurd h (by simp)
  | some g =>
    simp only [makeMove, hlk] at h
    by_cases hact : g.status ≠ Status.active
    · rw [if_pos hact] at h
      exact absurd h (by simp)
    · rw [if_neg hact] at h
      push_neg at hact
      obtain ⟨hwpos, _, hactiv, _⟩ := hs g (lookupGame_mem hlk)
      obtain ⟨hpot, hdep, hdisb, w0, b0, hw0, hb0, hne⟩ := hactiv hact
      simp only [hw0, hb0] at h
      by_cases ha : a ≠ (if g.board.sideToMove = Color.white then w0 else b0)
      · rw [if_pos ha] at h
        exact absurd h (by simp)
      · rw [if_neg ha] at h
        cases hEng : engine g.board mv with
        | error e =>
          simp only [hEng] at h
          exact absurd h (by simp)
        | ok res =>
          simp only [hEng] at h
          by_cases hcm : res.classification = Classification.checkmate
          · rw [if_pos hcm] at h
            rw [payout_single] at h
            simp only [Except.ok.injEq, Prod.mk.injEq] at h
            obtain ⟨hst', _⟩ := h
            subst hst'
            intro g' hg'
            rcases mem_putGame hg' with rfl | hg'
            · refine ⟨hwpos, fun hh => ?_, fun hh => ?_, fun _ => ?_⟩
              · simp only at hh
                split_ifs at hh
              · simp only at hh
                split_ifs at hh
              · refine ⟨rfl, hdep, ?_, w0, b0, ?_, ?_, hne⟩
                · simp only [paySum]
                  omega
                · simpa using hw0
                · simpa using hb0
            · exact hs g' hg'
          · rw [if_neg hcm] at h
            by_cases hsm : res.classification = Classification.stalemate
            · rw [if_pos hsm] at h
              rw [payout_split] at h
              simp only [Except.ok.injEq, Prod.mk.injEq] at h
              obtain ⟨hst', _⟩ := h
              subst hst'
              intro g' hg'
              rcases mem_putGame hg' with rfl | hg'
              · refine ⟨hwpos, fun hh => ?_, fun hh => ?_, fun _ => ?_⟩
                · simp only at hh
                  cases hh
                · simp only at hh
                  cases hh
                · refine ⟨rfl, hdep, ?_, w0, b0, ?_, ?_, hne⟩
                  · simp only [paySum]
                    omega
                  · simpa using hw0
                  · simpa using hb0
              · exact hs g' hg'
            · rw [if_neg hsm] at h
              simp only [Except.ok.injEq, Prod.mk.injEq] at h
              obtain ⟨hst', _⟩ := h
              subst hst'
              intro g' hg'
              rcases mem_putGame hg' with rfl | hg'
              · refine ⟨hwpos, fun hh => ?_, fun hh => ?_, fun hh => ?_⟩
                · simp only at hh
                  rw [hact] at hh
                  cases hh
                · exact ⟨hpot, hdep, hdisb, w0, b0, by simpa using hw0,
                    by simpa using hb0, hne⟩
                · simp only at hh
                  rw [hact] at hh
                  simp [Status.isTerminal] at hh
              · exact hs g' hg'

end ChessContract

namespace ChessContract

/-- A successful `resign` preserves the state invariant. -/
theorem resign_inv {s s' : ContractState} {id : Nat} {a : Addr}
    {pays : List Payment} (hs : StateInv s)
    (h : resign s id a = Except.ok (s', pays)) : StateInv s' := by
  cases hlk : lookupGame s id with
  | none =>
    simp only [resign, hlk] at h
    exact absurd h (by simp)
  | some g =>
    simp only [resign, hlk] at h
    by_cases hact : g.status ≠ Status.active
    · rw [if_pos hact] at h
      exact absurd h (by simp)
    · rw [if_neg hact] at h
      push_neg at hact
      obtain ⟨hwpos, _, hactiv, _⟩ := hs g (lookupGame_mem hlk)
      obtain ⟨hpot, hdep, hdisb, w0, b0, hw0, hb0, hne⟩ := hactiv hact
      simp only [hw0, hb0] at h
      by_cases haw : a = w0
      · rw [if_pos haw] at h
        rw [payout_single] at h
        simp only [Except.ok.injEq, Prod.mk.injEq] at h
        obtain ⟨hst', _⟩ := h
        subst hst'
        intro g' hg'
        rcases mem_putGame hg' with rfl | hg'
        · refine ⟨hwpos, fun hh => ?_, fun hh => ?_, fun _ => ?_⟩
          · simp only at hh
            cases hh
          · simp only at hh
            cases hh
          · refine ⟨rfl, hdep, ?_, w0, b0, by simp [hw0], by simp [hb0], hne⟩
            simp only [paySum]
            omega
        · exact hs g' hg'
      · rw [if_neg haw] at h
        by_cases hab : a = b0
        · rw [if_pos hab] at h
          rw [payout_single] at h
          simp only [Except.ok.injEq, Prod.mk.injEq] at h
          obtain ⟨hst', _⟩ := h
          subst hst'
          intro g' hg'
          rcases mem_putGame hg' with rfl | hg'
          · refine ⟨hwpos, fun hh => ?_, fun hh => ?_, fun _ => ?_⟩
            · simp only at hh
              cases hh
            · simp only at hh
              cases hh
            · refine ⟨rfl, hdep, ?_, w0, b0, by simp [hw0], by simp [hb0], hne⟩
              simp only [paySum]
              omega
          · exact hs g' hg'
        · rw [if_neg hab] at h
          exact absurd h (by simp)

/-- Every reachable state satisfies the state invariant: each stored game's
escrow accounting matches its status. -/
theorem reachable_inv {s : ContractState} (h : Reachable s) : StateInv s := by
  induction h with
  | init =>
    intro g hg
    simp [initState] at hg
  | create _ hop ih => exact createGame_inv ih hop
  | join _ hop ih => exact joinGame_inv ih hop
  | move _ hop ih => exact makeMove_inv ih hop
  | resignStep _ hop ih => exact resign_inv ih hop

end ChessContract

namespace ChessContract

/-- The concrete engine satisfies the turn-alternation contract. -/
theorem flipEngine_flips : EngineFlips flipEngine := by
  intro pos mv res h
  simp only [flipEngine, Except.ok.injEq] at h
  subst h
  rfl

/-- The pending one-game state is reachable. -/
theorem reachable_sPending : Reachable sPending :=
  Reachable.create Reachable.init
    (rfl : createGame initState alice 100000 100000 = Except.ok (sPending, []))

/-- The active one-game state is reachable. -/
theorem reachable_sActive : Reachable sActive :=
  Reachable.join reachable_sPending
    (rfl : joinGame sPending 1 bob 100000 = Except.ok (sActive, []))

/-- The resigned one-game state is reachable. -/
theorem reachable_sResigned : Reachable sResigned :=
  Reachable.resignStep reachable_sActive
    (rfl : resign sActive 1 alice = Except.ok (sResigned, [(bob, 200000)]))

end ChessContract

namespace ChessContract

/-- C5: `createGame` with a non-positive wager or a deposit different from
the wager fails with `ZeroWager`, leaving the state — in particular the
id-allocation counter and the game list — unchanged; a successful
`createGame` appends exactly one new game carrying the next id, the creator
in the White slot, status Pending and the deposit as its pot. -/
theorem c5_create_spec (s : ContractState) (creator : Addr) (w d : Nat) :
    ((w ≤ 0 ∨ d ≠ w) →
      createGame s creator w d = Except.error ContractError.zeroWager ∧
      applyExec s (createGame s creator w d) = s) ∧
    (∀ s' pays, createGame s creator w d = Except.ok (s', pays) →
      s'.nextId = s.nextId + 1 ∧
      ∃ g, s'.games = s.games ++ [g] ∧ g.id = s.nextId ∧
        g.white = some creator ∧ g.status = Status.pending ∧ g.pot = d ∧
        g.wager = w) := by
  constructor
  · intro hbad
    have hguard : w = 0 ∨ d ≠ w := by
      rcases hbad with hb | hb
      · exact Or.inl (Nat.le_zero.mp hb)
      · exact Or.inr hb
    have he : createGame s creator w d =
        Except.error ContractError.zeroWager := by
      unfold createGame
      rw [if_pos hguard]
    exact ⟨he, by simp [applyExec, he]⟩
  · intro s' pays h
    unfold createGame at h
    split at h
    · exact absurd h (by simp)
    · simp only [Except.ok.injEq, Prod.mk.injEq] at h
      obtain ⟨hs', _⟩ := h
      subst hs'
      exact ⟨rfl, ⟨_, rfl, rfl, rfl, rfl, rfl, rfl⟩⟩

/-- Witness for C5: a zero-wager creation fails and changes nothing, while
Alice's 100000 creation stores the expected Pending game. -/
theorem c5_create_spec_witness :
    createGame initState alice 0 0 = Except.error ContractError.zeroWager ∧
    applyExec initState (createGame initState alice 0 0) = initState ∧
    (∃ g, sPending.games = initState.games ++ [g] ∧ g.id = initState.nextId ∧
      g.white = some alice ∧ g.status = Status.pending ∧ g.pot = 100000 ∧
      g.wager = 100000) :=
  ⟨((c5_create_spec initState alice 0 0).1 (Or.inl (by decide))).1,
   ((c5_create_spec initState alice 0 0).1 (Or.inl (by decide))).2,
   ((c5_create_spec initState alice 100000 100000).2 sPending [] rfl).2⟩

/-- C6: joining an existing non-Pending game is a spectator join: with no
attached deposit it succeeds and leaves the state untouched, and any nonzero
deposit is rejected with `WagerMismatch` (the aborted transaction returns
the funds), never silently retained. -/
theorem c6_spectator_join (s : ContractState) (id : Nat) (g : Game)
    (j : Addr) (hlk : lookupGame s id = some g)
    (hnp : g.status ≠ Status.pending) :
    joinGame s id j 0 = Except.ok (s, []) ∧
    ∀ d, d ≠ 0 →
      joinGame s id j d = Except.error ContractError.wagerMismatch := by
  constructor
  · simp only [joinGame, hlk]
    rw [if_neg hnp]
    simp
  · intro d hd
    simp only [joinGame, hlk]
    rw [if_neg hnp, if_neg hd]

/-- Witness for C6: Carol spectates the active game with 0 funds as a no-op
and is rejected when attaching 7. -/
theorem c6_spectator_join_witness :
    joinGame sActive 1 carol 0 = Except.ok (sActive, []) ∧
    joinGame sActive 1 carol 7 = Except.error ContractError.wagerMismatch :=
  ⟨(c6_spectator_join sActive 1 gActive carol rfl (by decide)).1,
   (c6_spectator_join sActive 1 gActive carol rfl (by decide)).2 7
     (by decide)⟩

end ChessContract

namespace ChessContract

/-- C4: joining an existing Pending game as someone other than the existing
participant fails with `WagerMismatch` unless the deposit equals the wager;
with the matching deposit it fills the unfilled Black slot, brings the pot
to twice the wager and sets the status to Active. -/
theorem c4_join_pending (s : ContractState) (id : Nat) (g : Game) (j : Addr)
    (d : Nat) (hre : Reachable s) (hlk : lookupGame s id = some g)
    (hp : g.status = Status.pending) (hj : some j ≠ g.white) :
    (d ≠ g.wager →
      joinGame s id j d = Except.error ContractError.wagerMismatch) ∧
    (d = g.wager → ∃ s' g', joinGame s id j d = Except.ok (s', []) ∧
      lookupGame s' id = some g' ∧ g'.black = some j ∧ g'.white = g.white ∧
      g'.status = Status.active ∧ g'.pot = 2 * g.wager) := by
  have hinv := reachable_inv hre g (lookupGame_mem hlk)
  obtain ⟨hwpos, hpend, _, _⟩ := hinv
  obtain ⟨hpot, hdepo, hdisb, ⟨w0, hw0⟩, hblack⟩ := hpend hp
  have hself : ¬(some j = g.white ∨ some j = g.black) := by
    rintro (hc | hc)
    · exact hj hc
    · rw [hblack] at hc
      cases hc
  constructor
  · intro hd
    simp only [joinGame, hlk]
    rw [if_pos hp, if_neg hself, if_pos hd]
  · intro hd
    have hjoin : joinGame s id j d = Except.ok
        (putGame s { g with
                     black := some j,
                     pot := g.pot + d,
                     status := Status.active,
                     deposited := g.deposited + d }, []) := by
      simp only [joinGame, hlk]
      rw [if_pos hp, if_neg hself, if_neg (show ¬d ≠ g.wager by omega)]
    refine ⟨_, _, hjoin, lookupGame_put_self _ hlk rfl, rfl, rfl, rfl, ?_⟩
    simp only
    omega

/-- Witness for C4: Bob cannot join Alice's pending game with 5, and joins
it with the matching 100000, becoming Black with a doubled pot. -/
theorem c4_join_pending_witness :
    joinGame sPending 1 bob 5 = Except.error ContractError.wagerMismatch ∧
    (∃ s' g', joinGame sPending 1 bob 100000 = Except.ok (s', []) ∧
      lookupGame s' 1 = some g' ∧ g'.black = some bob ∧
      g'.white = gPending.white ∧ g'.status = Status.active ∧
      g'.pot = 2 * gPending.wager) :=
  ⟨(c4_join_pending sPending 1 gPending bob 5 reachable_sPending rfl rfl
      (by decide)).1 (by decide),
   (c4_join_pending sPending 1 gPending bob 100000 reachable_sPending rfl rfl
      (by decide)).2 rfl⟩

/-- C1: once a game's status is terminal, `makeMove` on it always fails with
`GameNotActive`, `resign` on it always fails with `GameNotActive`, and any
successful `joinGame` on it is a spectator no-op, so its board, white,
black and pot fields are never mutated again. -/
theorem c1_terminal_monotonic (engine : Engine) (s : ContractState)
    (id : Nat) (g : Game) (hlk : lookupGame s id = some g)
    (hterm : g.status.isTerminal = true) :
    (∀ actor mv, makeMove engine s id actor mv =
        Except.error ContractError.gameNotActive) ∧
    (∀ actor, resign s id actor =
        Except.error ContractError.gameNotActive) ∧
    (∀ joiner d s' pays, joinGame s id joiner d = Except.ok (s', pays) →
      s' = s ∧ lookupGame s' id = some g) := by
  have hna : g.status ≠ Status.active := by
    intro hh
    rw [hh] at hterm
    simp [Status.isTerminal] at hterm
  have hnp : g.status ≠ Status.pending := by
    intro hh
    rw [hh] at hterm
    simp [Status.isTerminal] at hterm
  refine ⟨?_, ?_, ?_⟩
  · intro actor mv
    simp only [makeMove, hlk]
    rw [if_pos hna]
  · intro actor
    simp only [resign, hlk]
    rw [if_pos hna]
  · intro joiner d s' pays h
    simp only [joinGame, hlk] at h
    rw [if_neg hnp] at h
    by_cases hd : d = 0
    · rw [if_pos hd] at h
      simp only [Except.ok.injEq, Prod.mk.injEq] at h
      obtain ⟨h1, _⟩ := h
      subst h1
      exact ⟨rfl, hlk⟩
    · rw [if_neg hd] at h
      exact absurd h (by simp)

/-- Witness for C1: on the resigned game a move and a further resignation
are rejected with `GameNotActive`, and a spectator join leaves the stored
game intact. -/
theorem c1_terminal_monotonic_witness :
    makeMove flipEngine sResigned 1 alice ⟨"e2", "e4", none⟩ =
      Except.error ContractError.gameNotActive ∧
    resign sResigned 1 bob = Except.error ContractError.gameNotActive ∧
    (sResigned = sResigned ∧ lookupGame sResigned 1 = some gResigned) :=
  ⟨(c1_terminal_monotonic flipEngine sResigned 1 gResigned rfl rfl).1 alice
      ⟨"e2", "e4", none⟩,
   (c1_terminal_monotonic flipEngine sResigned 1 gResigned rfl rfl).2.1 bob,
   (c1_terminal_monotonic flipEngine sResigned 1 gResigned rfl rfl).2.2 carol
      0 sResigned [] rfl⟩

end ChessContract

namespace ChessContract

/-- C8: `resign` fails with `NotFound` for a missing game, `GameNotActive`
for a non-Active game and `NotAParticipant` for an actor holding neither
color; for a participant of an Active game it succeeds, sets the
resignation status matching the resigning color and pays the full pot to
the other participant. -/
theorem c8_resign_spec :
    (∀ s id a, lookupGame s id = none →
      resign s id a = Except.error ContractError.notFound) ∧
    (∀ s id a g, lookupGame s id = some g → g.status ≠ Status.active →
      resign s id a = Except.error ContractError.gameNotActive) ∧
    (∀ s id a g, Reachable s → lookupGame s id = some g →
      g.status = Status.active → some a ≠ g.white → some a ≠ g.black →
      resign s id a = Except.error ContractError.notAParticipant) ∧
    (∀ s id a g b, lookupGame s id = some g → g.status = Status.active →
      g.white = some a → g.black = some b →
      ∃ s' g', resign s id a = Except.ok (s', [(b, g.pot)]) ∧
        lookupGame s' id = some g' ∧ g'.status = Status.whiteResigned ∧
        g'.pot = 0) ∧
    (∀ s id a g w, Reachable s → lookupGame s id = some g →
      g.status = Status.active → g.white = some w → g.black = some a →
      ∃ s' g', resign s id a = Except.ok (s', [(w, g.pot)]) ∧
        lookupGame s' id = some g' ∧ g'.status = Status.blackResigned ∧
        g'.pot = 0) := by
  refine ⟨?_, ?_, ?_, ?_, ?_⟩
  · intro s id a hlk
    simp [resign, hlk]
  · intro s id a g hlk hna
    simp only [resign, hlk]
    rw [if_pos hna]
  · intro s id a g hre hlk hact hw hb
    obtain ⟨_, _, hactiv, _⟩ := reachable_inv hre g (lookupGame_mem hlk)
    obtain ⟨_, _, _, w0, b0, hw0, hb0, _⟩ := hactiv hact
    simp only [resign, hlk]
    rw [if_neg (show ¬g.status ≠ Status.active by simp [hact])]
    simp only [hw0, hb0]
    have ha1 : a ≠ w0 := by
      intro hh
      exact hw (by rw [hw0, hh])
    have ha2 : a ≠ b0 := by
      intro hh
      exact hb (by rw [hb0, hh])
    rw [if_neg ha1, if_neg ha2]
  · intro s id a g b hlk hact hwa hba
    simp only [resign, hlk]
    rw [if_neg (show ¬g.status ≠ Status.active by simp [hact])]
    simp only [hwa, hba]
    rw [if_pos trivial]
    simp only [payout_single]
    exact ⟨_, _, rfl, lookupGame_put_self _ hlk rfl, rfl, rfl⟩
  · intro s id a g w hre hlk hact hwa hba
    obtain ⟨_, _, hactiv, _⟩ := reachable_inv hre g (lookupGame_mem hlk)
    obtain ⟨_, _, _, w0, b0, hw0, hb0, hne⟩ := hactiv hact
    have hww : w0 = w := by
      have : some w = some w0 := hwa.symm.trans hw0
      injection this.symm
    have hbb : b0 = a := by
      have : some a = some b0 := hba.symm.trans hb0
      injection this.symm
    have haw : a ≠ w := by
      intro hh
      exact hne (by rw [hww, hbb, hh])
    simp only [resign, hlk]
    rw [if_neg (show ¬g.status ≠ Status.active by simp [hact])]
    simp only [hwa, hba]
    rw [if_neg haw, if_pos trivial]
    simp only [payout_single]
    exact ⟨_, _, rfl, lookupGame_put_self _ hlk rfl, rfl, rfl⟩

/-- Witness for C8: each of the five resignation outcomes at a concrete
state. -/
theorem c8_resign_spec_witness :
    resign sActive 99 alice = Except.error ContractError.notFound ∧
    resign sResigned 1 alice = Except.error ContractError.gameNotActive ∧
    resign sActive 1 carol = Except.error ContractError.notAParticipant ∧
    (∃ s' g', resign sActive 1 alice = Except.ok (s', [(bob, gActive.pot)]) ∧
      lookupGame s' 1 = some g' ∧ g'.status = Status.whiteResigned ∧
      g'.pot = 0) ∧
    (∃ s' g', resign sActive 1 bob = Except.ok (s', [(alice, gActive.pot)]) ∧
      lookupGame s' 1 = some g' ∧ g'.status = Status.blackResigned ∧
      g'.pot = 0) :=
  ⟨c8_resign_spec.1 sActive 99 alice rfl,
   c8_resign_spec.2.1 sResigned 1 alice gResigned rfl (by decide),
   c8_resign_spec.2.2.1 sActive 1 carol gActive reachable_sActive rfl rfl
     (by decide) (by decide),
   c8_resign_spec.2.2.2.1 sActive 1 alice gActive bob rfl rfl rfl rfl,
   c8_resign_spec.2.2.2.2 sActive 1 bob gActive alice reachable_sActive rfl
     rfl rfl rfl⟩

end ChessContract

namespace ChessContract

/-- C7: on an Active game, every successful `makeMove` stores a board whose
side to move is the opposite of the previous one (given the Rules Engine's
turn-alternation contract), and a `makeMove` by anyone other than the
participant holding the current side to move fails with `NotYourTurn`. -/
theorem c7_turn_alternation (engine : Engine) (hE : EngineFlips engine)
    (s : ContractState) (id : Nat) (g : Game) (a : Addr) (mv : MoveReq)
    (hlk : lookupGame s id = some g) (hact : g.status = Status.active) :
    (∀ s' pays, makeMove engine s id a mv = Except.ok (s', pays) →
      ∃ g', lookupGame s' id = some g' ∧
        g'.board.sideToMove = g.board.sideToMove.flip) ∧
    ((some a ≠ if g.board.sideToMove = Color.white
        then g.white else g.black) →
      makeMove engine s id a mv = Except.error ContractError.notYourTurn) := by
  have hnna : ¬g.status ≠ Status.active := by simp [hact]
  constructor
  · intro s' pays h
    simp only [makeMove, hlk] at h
    rw [if_neg hnna] at h
    cases hw : g.white with
    | none =>
      simp only [hw] at h
      exact absurd h (by simp)
    | some w0 =>
      cases hb : g.black with
      | none =>
        simp only [hw, hb] at h
        exact absurd h (by simp)
      | some b0 =>
        simp only [hw, hb] at h
        by_cases ha : a ≠ (if g.board.sideToMove = Color.white then w0 else b0)
        · rw [if_pos ha] at h
          exact absurd h (by simp)
        · rw [if_neg ha] at h
          cases hEng : engine g.board mv with
          | error e =>
            simp only [hEng] at h
            exact absurd h (by simp)
          | ok res =>
            simp only [hEng] at h
            have hflip := hE _ _ _ hEng
            by_cases hcm : res.classification = Classification.checkmate
            · rw [if_pos hcm] at h
              simp only [payout_single] at h
              simp only [Except.ok.injEq, Prod.mk.injEq] at h
              obtain ⟨hs', _⟩ := h
              subst hs'
              exact ⟨_, lookupGame_put_self _ hlk rfl, hflip⟩
            · rw [if_neg hcm] at h
              by_cases hsm : res.classification = Classification.stalemate
              · rw [if_pos hsm] at h
                simp only [payout_split] at h
                simp only [Except.ok.injEq, Prod.mk.injEq] at h
                obtain ⟨hs', _⟩ := h
                subst hs'
                exact ⟨_, lookupGame_put_self _ hlk rfl, hflip⟩
              · rw [if_neg hsm] at h
                simp only [Except.ok.injEq, Prod.mk.injEq] at h
                obtain ⟨hs', _⟩ := h
                subst hs'
                exact ⟨_, lookupGame_put_self _ hlk rfl, hflip⟩
  · intro hna
    simp only [makeMove, hlk]
    rw [if_neg hnna]
    cases hw : g.white with
    | none => simp only [hw]
    | some w0 =>
      cases hb : g.black with
      | none => simp only [hw, hb]
      | some b0 =>
        simp only [hw, hb]
        rw [hw, hb] at hna
        have ha : a ≠ (if g.board.sideToMove = Color.white
            then w0 else b0) := by
          intro hh
          apply hna
          by_cases hside : g.board.sideToMove = Color.white
          · rw [if_pos hside] at hh ⊢
            rw [hh]
          · rw [if_neg hside] at hh ⊢
            rw [hh]
        rw [if_pos ha]

/-- Witness for C7: Alice's move through the concrete engine hands the turn
to Black, and Bob moving out of turn is rejected. -/
theorem c7_turn_alternation_witness :
    (∃ g', lookupGame sMoved 1 = some g' ∧
      g'.board.sideToMove = gActive.board.sideToMove.flip) ∧
    makeMove flipEngine sActive 1 bob ⟨"e2", "e4", none⟩ =
      Except.error ContractError.notYourTurn :=
  ⟨(c7_turn_alternation flipEngine flipEngine_flips sActive 1 gActive alice
      ⟨"e2", "e4", none⟩ rfl rfl).1 sMoved [] rfl,
   (c7_turn_alternation flipEngine flipEngine_flips sActive 1 gActive bob
      ⟨"e2", "e4", none⟩ rfl rfl).2 (by decide)⟩

/-- C2: a successful `payout` leaves the pot exactly 0 and disburses exactly
the pot held immediately before it; a request whose amounts exceed the pot
fails with `InsufficientPot`; consequently a successful resignation pays out
exactly the prior pot and stores the game with pot 0. -/
theorem c2_payout_conservation :
    (∀ (pot : Nat) (recips : List Payment) (res : Nat × List Payment),
      payout pot recips = Except.ok res → res.1 = 0 ∧ paySum res.2 = pot) ∧
    (∀ (pot : Nat) (recips : List Payment), pot < paySum recips →
      payout pot recips = Except.error ContractError.insufficientPot) ∧
    (∀ s id a s' pays g, lookupGame s id = some g →
      resign s id a = Except.ok (s', pays) →
      paySum pays = g.pot ∧
      ∃ g', lookupGame s' id = some g' ∧ g'.pot = 0) := by
  refine ⟨?_, ?_, ?_⟩
  · intro pot recips res h
    unfold payout at h
    split at h
    next hc =>
      simp only [Except.ok.injEq] at h
      subst h
      exact ⟨rfl, hc⟩
    · exact absurd h (by simp)
  · intro pot recips hlt
    unfold payout
    rw [if_neg (by omega)]
  · intro s id a s' pays g hlk h
    simp only [resign, hlk] at h
    by_cases hna : g.status ≠ Status.active
    · rw [if_pos hna] at h
      exact absurd h (by simp)
    · rw [if_neg hna] at h
      cases hw : g.white with
      | none =>
        simp only [hw] at h
        exact absurd h (by simp)
      | some w0 =>
        cases hb : g.black with
        | none =>
          simp only [hw, hb] at h
          exact absurd h (by simp)
        | some b0 =>
          simp only [hw, hb] at h
          by_cases haw : a = w0
          · rw [if_pos haw] at h
            simp only [payout_single] at h
            simp only [Except.ok.injEq, Prod.mk.injEq] at h
            obtain ⟨hs', hp⟩ := h
            subst hs'
            subst hp
            exact ⟨by simp [paySum], _, lookupGame_put_self _ hlk rfl, rfl⟩
          · rw [if_neg haw] at h
            by_cases hab : a = b0
            · rw [if_pos hab] at h
              simp only [payout_single] at h
              simp only [Except.ok.injEq, Prod.mk.injEq] at h
              obtain ⟨hs', hp⟩ := h
              subst hs'
              subst hp
              exact ⟨by simp [paySum], _, lookupGame_put_self _ hlk rfl, rfl⟩
            · rw [if_neg hab] at h
              exact absurd h (by simp)

/-- Witness for C2: a full-pot payout succeeds and conserves the amount, an
excessive request is rejected, and Alice's concrete resignation pays Bob
exactly the prior pot, leaving pot 0. -/
theorem c2_payout_conservation_witness :
    ((0 : Nat) = 0 ∧ paySum [(alice, 5)] = 5) ∧
    payout 3 [(alice, 5)] = Except.error ContractError.insufficientPot ∧
    (paySum [(bob, 200000)] = gActive.pot ∧
      ∃ g', lookupGame sResigned 1 = some g' ∧ g'.pot = 0) :=
  ⟨c2_payout_conservation.1 5 [(alice, 5)] (0, [(alice, 5)]) rfl,
   c2_payout_conservation.2.1 3 [(alice, 5)] (by simp [paySum]),
   c2_payout_conservation.2.2 sActive 1 alice sResigned [(bob, 200000)]
     gActive rfl rfl⟩

end ChessContract

namespace ChessContract

/-- C3 counterexample: the state after create → join → resign is reachable,
and its stored game has pot 0 while the deposits received for it total
200000, so the pot does not equal the sum of deposits actually received. -/
theorem c3_counterexample :
    Reachable sResigned ∧ lookupGame sResigned 1 = some gResigned ∧
    gResigned.deposited = 200000 ∧ gResigned.pot = 0 ∧
    gResigned.pot ≠ gResigned.deposited :=
  ⟨reachable_sResigned, rfl, rfl, rfl, by decide⟩

/-- C3 (amended): in every reachable state each stored game's pot equals the
deposits received for it minus the amounts already disbursed from it
(pot + disbursed = deposited), and the pot never exceeds 2 × wager; this is
preserved by every operation. -/
theorem c3_escrow_invariant {s : ContractState} (h : Reachable s) :
    ∀ g ∈ s.games,
      g.pot + g.disbursed = g.deposited ∧ g.pot ≤ 2 * g.wager := by
  intro g hg
  obtain ⟨hw, hp, ha, ht⟩ := reachable_inv h g hg
  cases hst : g.status
  case pending =>
    obtain ⟨h1, h2, h3, _, _⟩ := hp hst
    omega
  case active =>
    obtain ⟨h1, h2, h3, _⟩ := ha hst
    omega
  all_goals
    obtain ⟨h1, h2, h3, _⟩ := ht (by rw [hst]; rfl)
  all_goals omega

/-- Witness for the amended C3 at the concrete post-resignation state. -/
theorem c3_escrow_invariant_witness :
    gResigned ∈ sResigned.games ∧
    gResigned.pot + gResigned.disbursed = gResigned.deposited ∧
    gResigned.pot ≤ 2 * gResigned.wager :=
  ⟨by simp [sResigned],
   (c3_escrow_invariant reachable_sResigned gResigned (by simp [sResigned])).1,
   (c3_escrow_invariant reachable_sResigned gResigned
     (by simp [sResigned])).2⟩

end ChessContract

namespace Frontend

/-- C9: the frontend decodes the numeric status from `get_game` as the
closed enumeration 1 = Pending, 2 = Active, 3 = Stalemate, 4 = checkmate
with White winning, 5 = checkmate with Black winning, 6 = White resigned,
7 = Black resigned; every other code renders as Unknown, and a click on the
board does nothing unless the code equals 2. -/
theorem c9_status_codes :
    (getStatusLabel 1 = "Pending" ∧ getStatusLabel 2 = "Active" ∧
     getStatusLabel 3 = "Stalemate" ∧ getStatusLabel 4 = "White Wins" ∧
     getStatusLabel 5 = "Black Wins" ∧ getStatusLabel 6 = "White Resigned" ∧
     getStatusLabel 7 = "Black Resigned") ∧
    (statusMessage 3 = "Stalemate! The game is over." ∧
     statusMessage 4 = "Checkmate! White wins the game." ∧
     statusMessage 5 = "Checkmate! Black wins the game." ∧
     statusMessage 6 = "White has resigned. Black wins the game." ∧
     statusMessage 7 = "Black has resigned. White wins the game.") ∧
    (∀ st : Int, st ∉ ([1, 2, 3, 4, 5, 6, 7] : List Int) →
      getStatusLabel st = "Unknown" ∧
      statusMessage st = "Unknown game status.") ∧
    (∀ st pc turn sel targets promo sq, st ≠ 2 →
      handleSquareClick st pc turn sel targets promo sq =
        ClickAction.ignore) := by
  refine ⟨⟨rfl, rfl, rfl, rfl, rfl, rfl, rfl⟩, ⟨rfl, rfl, rfl, rfl, rfl⟩,
    ?_, ?_⟩
  · intro st h
    simp at h
    obtain ⟨h1, h2, h3, h4, h5, h6, h7⟩ := h
    constructor
    · simp [getStatusLabel, h1, h2, h3, h4, h5, h6, h7]
    · simp [statusMessage, h1, h2, h3, h4, h5, h6, h7]
  · intro st pc turn sel targets promo sq hst
    simp only [handleSquareClick]
    rw [if_pos hst]

/-- Witness for C9: code 0 renders Unknown, code 99 yields the unknown
message, and a click in a stalemated game (code 3) is ignored. -/
theorem c9_status_codes_witness :
    getStatusLabel 0 = "Unknown" ∧
    statusMessage 99 = "Unknown game status." ∧
    handleSquareClick 3 none "w" none [] false "e4" = ClickAction.ignore :=
  ⟨(c9_status_codes.2.2.1 0 (by decide)).1,
   (c9_status_codes.2.2.1 99 (by decide)).2,
   c9_status_codes.2.2.2 3 none "w" none [] false "e4" (by decide)⟩

/-- C10: the frontend `join_game` message carries no `sent_funds` field at
all when the wager is 0 (so a spectator join never attaches funds), and for
a positive wager it attaches exactly the single coin with denom uscrt and
the wager's decimal string as amount. -/
theorem c10_join_funds :
    (∀ gid : Int, (buildJoinGameMsg gid 0).sent_funds = none) ∧
    (∀ gid w : Int, 0 < w → (buildJoinGameMsg gid w).sent_funds =
      some [⟨"uscrt", toString w⟩]) ∧
    (∀ gid w : Int, w ≤ 0 → (buildJoinGameMsg gid w).sent_funds = none) := by
  refine ⟨?_, ?_, ?_⟩
  · intro gid
    simp only [buildJoinGameMsg]
    rw [if_neg (lt_irrefl 0)]
  · intro gid w hw
    simp only [buildJoinGameMsg]
    rw [if_pos hw]
  · intro gid w hw
    simp only [buildJoinGameMsg]
    rw [if_neg (by omega)]

/-- Witness for C10: concrete join messages with wagers 0, 5 and -3. -/
theorem c10_join_funds_witness :
    (buildJoinGameMsg 1 0).sent_funds = none ∧
    (buildJoinGameMsg 1 5).sent_funds =
      some [⟨"uscrt", toString (5 : Int)⟩] ∧
    (buildJoinGameMsg 2 (-3)).sent_funds = none :=
  ⟨c10_join_funds.1 1, c10_join_funds.2.1 1 5 (by decide),
   c10_join_funds.2.2 2 (-3) (by decide)⟩

end Frontend
